import Mathlib

/-
Verification of the IR pipeline fragment of dnscontrol (commands/printIR.go).

The Go file is shallowly embedded:
  * pure helpers (PrintValidationErrors, stringSliceToMap) become Lean
    functions over lists;
  * the Go map is an association list with overwrite-on-insert;
  * the effectful pipeline (ExecuteDSL, PrintIR, PrintJSON, the check
    command action) is modelled as explicit state passing: a World record
    holds the behaviour of the external collaborators for one invocation
    (the JavaScript evaluator, the post-processor, the validator, the
    encoding-json marshaller, the file system calls), and each function
    returns its result together with the ordered trace of observable
    events it performed, plus the updated file-system model;
  * the value-level behaviour of encoding-json Marshal vs MarshalIndent
    is modelled on a tree of JSON values.
-/

set_option autoImplicit false

namespace DnsControl

/-- Go errors are modelled by their message string. -/
abbrev GoError := String

/- ----------------------------------------------------------------
   Issue classifier: PrintValidationErrors (printIR.go lines 106-120).
   ---------------------------------------------------------------- -/

/-- A validation issue returned by normalize.ValidateAndNormalizeConfig.
The Go code distinguishes issues by the dynamic type test
err.(normalize.Warning); the field isWarning records whether that type
assertion succeeds, msg is the error's message (err.Error()). -/
structure ValidationIssue where
  isWarning : Bool
  msg : String
  deriving DecidableEq, Repr

/-- The body of the loop of PrintValidationErrors: one issue updates the
pair (fatal flag so far, log lines emitted so far). -/
def classifyStep (acc : Bool × List String) (err : ValidationIssue) : Bool × List String :=
  if err.isWarning then
    (acc.1, acc.2 ++ ["WARNING: " ++ err.msg])
  else
    (true, acc.2 ++ ["ERROR: " ++ err.msg])

/-- PrintValidationErrors from printIR.go: returns the fatal flag together
with the log lines it emits, in emission order.  The Go function prints the
count line first, then iterates over the issues with the loop body
classifyStep. -/
def PrintValidationErrors (errs : List ValidationIssue) : Bool × List String :=
  if errs.length = 0 then
    (false, [])
  else
    errs.foldl classifyStep (false, [toString errs.length ++ " Validation errors:"])

/-- The line printed for one issue (the two log.Printf calls in the loop). -/
def issueLine (err : ValidationIssue) : String :=
  if err.isWarning then "WARNING: " ++ err.msg else "ERROR: " ++ err.msg

theorem classify_foldl (errs : List ValidationIssue) (b : Bool) (ls : List String) :
    List.foldl classifyStep (b, ls) errs
      = (b || errs.any (fun e => !e.isWarning), ls ++ errs.map issueLine) := by
  induction errs generalizing b ls with
  | nil => simp
  | cons e rest ih =>
    cases he : e.isWarning <;>
      simp [classifyStep, he, ih, issueLine]

theorem pve_fst_eq_any (errs : List ValidationIssue) :
    (PrintValidationErrors errs).1 = errs.any (fun e => !e.isWarning) := by
  unfold PrintValidationErrors
  split
  · rename_i h
    rw [List.length_eq_zero] at h
    subst h
    simp
  · rw [classify_foldl]
    simp

theorem pve_snd_eq (errs : List ValidationIssue) :
    (PrintValidationErrors errs).2
      = if errs.length = 0 then []
        else (toString errs.length ++ " Validation errors:") :: errs.map issueLine := by
  unfold PrintValidationErrors
  split
  · simp
  · rw [classify_foldl]
    simp

/-- Claim C1: the fatal flag returned by PrintValidationErrors is true iff
at least one issue in the list has a dynamic kind other than Warning, and
classification depends only on the kind tags, never on the message texts. -/
theorem fatal_iff_nonwarning_kind_only :
    (∀ errs : List ValidationIssue,
      ((PrintValidationErrors errs).1 = true ↔ ∃ e ∈ errs, e.isWarning = false))
    ∧ (∀ errs1 errs2 : List ValidationIssue,
        errs1.map ValidationIssue.isWarning = errs2.map ValidationIssue.isWarning →
        (PrintValidationErrors errs1).1 = (PrintValidationErrors errs2).1) := by
  constructor
  · intro errs
    rw [pve_fst_eq_any, List.any_eq_true]
    simp
  · intro errs1 errs2 h
    rw [pve_fst_eq_any, pve_fst_eq_any]
    have h1 : ∀ l : List ValidationIssue,
        l.any (fun e => !e.isWarning)
          = (l.map ValidationIssue.isWarning).any (fun b => !b) := by
      intro l
      induction l with
      | nil => rfl
      | cons a t ih => simp [ih]
    rw [h1, h1, h]

/-- Witness for C1 at concrete inputs: a warning plus an error is fatal, and
two lists agreeing on kinds but not on messages classify identically. -/
theorem fatal_iff_nonwarning_kind_only_witness :
    ((PrintValidationErrors [⟨true, "w"⟩, ⟨false, "e"⟩]).1 = true
      ↔ ∃ e ∈ [(⟨true, "w"⟩ : ValidationIssue), ⟨false, "e"⟩], e.isWarning = false)
    ∧ (PrintValidationErrors [⟨true, "w"⟩, ⟨false, "e"⟩]).1
        = (PrintValidationErrors [⟨true, "other"⟩, ⟨false, "texts"⟩]).1 :=
  ⟨fatal_iff_nonwarning_kind_only.1 [⟨true, "w"⟩, ⟨false, "e"⟩],
   fatal_iff_nonwarning_kind_only.2 [⟨true, "w"⟩, ⟨false, "e"⟩]
     [⟨true, "other"⟩, ⟨false, "texts"⟩] (by decide)⟩

/-- Claim C6: the classifier's output is nothing for an empty list (with
fatal false returned immediately), and otherwise exactly one count line
followed by one line per issue in input order, WARNING-prefixed for Warning
kinds and ERROR-prefixed otherwise, with no sorting and no de-duplication. -/
theorem classifier_output_exact (errs : List ValidationIssue) :
    ((PrintValidationErrors errs).2
        = (if errs.length = 0 then ([] : List String)
           else (toString errs.length ++ " Validation errors:") :: errs.map issueLine))
    ∧ (errs = [] → PrintValidationErrors errs = (false, [])) := by
  refine ⟨pve_snd_eq errs, ?_⟩
  intro h
  subst h
  rfl

/-- Witness for C6 at concrete inputs: a two-issue list yields the count
line then the two prefixed lines in order; the empty list yields nothing. -/
theorem classifier_output_exact_witness :
    ((PrintValidationErrors [⟨false, "a"⟩, ⟨true, "b"⟩]).2
        = (if ([(⟨false, "a"⟩ : ValidationIssue), ⟨true, "b"⟩].length = 0)
            then ([] : List String)
            else (toString [(⟨false, "a"⟩ : ValidationIssue), ⟨true, "b"⟩].length
                    ++ " Validation errors:")
              :: [(⟨false, "a"⟩ : ValidationIssue), ⟨true, "b"⟩].map issueLine))
    ∧ (PrintValidationErrors [] = (false, []))
    ∧ (PrintValidationErrors [⟨false, "a"⟩, ⟨true, "b"⟩]).2
        = ["2 Validation errors:", "ERROR: a", "WARNING: b"] :=
  ⟨(classifier_output_exact [⟨false, "a"⟩, ⟨true, "b"⟩]).1,
   (classifier_output_exact []).2 rfl,
   by decide⟩

/- ----------------------------------------------------------------
   Variable mapper: stringSliceToMap (printIR.go lines 173-182).
   ---------------------------------------------------------------- -/

/-- Insert into an association list, overwriting the value when the key is
already present (the behaviour of a Go map assignment). -/
def upsert {α β : Type} [DecidableEq α] (m : List (α × β)) (k : α) (v : β) :
    List (α × β) :=
  match m with
  | [] => [(k, v)]
  | p :: rest => if p.1 = k then (k, v) :: rest else p :: upsert rest k v

/-- Lookup in an association list (the behaviour of a Go map read). -/
def lookupKey {α β : Type} [DecidableEq α] (m : List (α × β)) (k : α) : Option β :=
  match m with
  | [] => none
  | p :: rest => if p.1 = k then some p.2 else lookupKey rest k

/-- strings.SplitN(s, "=", 2) modelled on character lists: at most one
split, performed at the first occurrence of the equals sign. -/
def splitEq2 (s : List Char) : List (List Char) :=
  match s with
  | [] => [[]]
  | c :: rest =>
    if c = '=' then [[], rest]
    else
      match splitEq2 rest with
      | [] => [[c]]
      | p :: ps => (c :: p) :: ps

/-- stringSliceToMap from printIR.go: fold the KEY=VALUE tokens into a map,
keeping only tokens that SplitN cut into exactly two parts. -/
def stringSliceToMap (stringSlice : List (List Char)) :
    List (List Char × List Char) :=
  stringSlice.foldl
    (fun mapString values =>
      match splitEq2 values with
      | [k, v] => upsert mapString k v
      | _ => mapString)
    []

/-- Specification-side reading of one token, following the spec's words:
split at the first equals sign (so the value may itself contain one); a
token without an equals sign yields nothing. -/
def specTokenKV (t : List Char) : Option (List Char × List Char) :=
  if t.contains '=' then
    some (t.takeWhile (fun c => c != '='), (t.dropWhile (fun c => c != '=')).drop 1)
  else
    none

/-- Specification-side lookup: the value of the last well-formed token
whose key part equals k (later occurrences overwrite earlier ones). -/
def specVarLookup (k : List Char) (ts : List (List Char)) : Option (List Char) :=
  ((ts.filterMap specTokenKV).reverse.find? (fun p => decide (p.1 = k))).map
    (fun p => p.2)

theorem splitEq2_eq (t : List Char) :
    splitEq2 t
      = match specTokenKV t with
        | some (k, v) => [k, v]
        | none => [t] := by
  induction t with
  | nil => rfl
  | cons c rest ih =>
    by_cases hc : c = '='
    · subst hc
      simp [splitEq2, specTokenKV]
    · rw [splitEq2]
      simp only [if_neg hc, ih]
      by_cases hr : '=' ∈ rest
      · simp [specTokenKV, hr, hc, Ne.symm hc]
      · simp [specTokenKV, hr, hc, Ne.symm hc]

theorem ssm_eq_foldl (ts : List (List Char)) (m : List (List Char × List Char)) :
    ts.foldl
        (fun mapString values =>
          match splitEq2 values with
          | [k, v] => upsert mapString k v
          | _ => mapString)
        m
      = (ts.filterMap specTokenKV).foldl (fun acc p => upsert acc p.1 p.2) m := by
  induction ts generalizing m with
  | nil => rfl
  | cons t rest ih =>
    rw [List.foldl_cons, splitEq2_eq t]
    cases h : specTokenKV t with
    | none => simp [h, List.filterMap_cons, ih]
    | some p => simp [h, List.filterMap_cons, ih]

theorem lookup_upsert {α β : Type} [DecidableEq α]
    (m : List (α × β)) (k k2 : α) (v : β) :
    lookupKey (upsert m k v) k2 = if k = k2 then some v else lookupKey m k2 := by
  induction m with
  | nil => simp [upsert, lookupKey]
  | cons p rest ih =>
    by_cases hp : p.1 = k
    · by_cases hk : k = k2 <;> simp [upsert, lookupKey, hp, hk]
    · by_cases hp2 : p.1 = k2
      · have hkk : ¬ k = k2 := by
          intro h
          exact hp (h ▸ hp2)
        have hks : ¬ k2 = k := by
          intro h
          exact hkk h.symm
        simp [upsert, lookupKey, hp, hp2, hkk, hks]
      · simp [upsert, lookupKey, hp, hp2, ih]

theorem lookup_foldl_upsert {α β : Type} [DecidableEq α]
    (ps : List (α × β)) (m : List (α × β)) (k : α) :
    lookupKey (ps.foldl (fun acc p => upsert acc p.1 p.2) m) k
      = match ps.reverse.find? (fun p => decide (p.1 = k)) with
        | some p => some p.2
        | none => lookupKey m k := by
  induction ps generalizing m with
  | nil => rfl
  | cons p rest ih =>
    rw [List.foldl_cons, ih, List.reverse_cons, List.find?_append]
    cases hf : rest.reverse.find? (fun p => decide (p.1 = k)) with
    | some q => simp [hf, Option.orElse]
    | none =>
      by_cases hk : p.1 = k
      · simp [hf, Option.orElse, List.find?, hk, lookup_upsert]
      · simp [hf, Option.orElse, List.find?, hk, lookup_upsert]

/-- Claim C5: for every token list and every key, looking the key up in the
map built by stringSliceToMap gives exactly the value of the last token that
splits at its first equals sign to that key; tokens without an equals sign
are discarded without error, values keep any later equals signs, and later
tokens overwrite earlier ones. -/
theorem stringSliceToMap_spec (ts : List (List Char)) (k : List Char) :
    lookupKey (stringSliceToMap ts) k = specVarLookup k ts := by
  unfold stringSliceToMap specVarLookup
  rw [ssm_eq_foldl, lookup_foldl_upsert]
  cases hf : (ts.filterMap specTokenKV).reverse.find? (fun p => decide (p.1 = k)) with
  | some q => simp [hf]
  | none => simp [hf, lookupKey]

/-- Witness for C5 at concrete inputs: in A=b=c, A=d, nope the malformed
token is dropped, the first token splits only at its first equals sign, and
the later A token overwrites the earlier one. -/
theorem stringSliceToMap_spec_witness :
    (lookupKey (stringSliceToMap ["A=b=c".toList, "A=d".toList, "nope".toList])
        "A".toList
      = specVarLookup "A".toList ["A=b=c".toList, "A=d".toList, "nope".toList])
    ∧ specVarLookup "A".toList ["A=b=c".toList, "A=d".toList, "nope".toList]
        = some "d".toList
    ∧ lookupKey (stringSliceToMap ["A=b=c".toList]) "A".toList = some "b=c".toList
    ∧ lookupKey (stringSliceToMap ["nope".toList]) "nope".toList = none :=
  ⟨stringSliceToMap_spec ["A=b=c".toList, "A=d".toList, "nope".toList] "A".toList,
   by decide, by decide, by decide⟩

/- ----------------------------------------------------------------
   IR serializer, value level: encoding-json Marshal vs MarshalIndent
   as called by PrintJSON (printIR.go lines 142-151).  The object graph
   handed to encoding-json is modelled as a tree of JSON values; struct
   fields are ordered, matching Go struct-field serialization order.
   ---------------------------------------------------------------- -/

mutual

inductive Json where
  | null : Json
  | bool (b : Bool) : Json
  | num (n : Int) : Json
  | str (s : List Char) : Json
  | arr (elems : JsonList) : Json
  | obj (fields : JsonFields) : Json

inductive JsonList where
  | nil : JsonList
  | cons (hd : Json) (tl : JsonList) : JsonList

inductive JsonFields where
  | nil : JsonFields
  | cons (key : List Char) (val : Json) (tl : JsonFields) : JsonFields

end

/-- encoding-json escaping of one character inside a string literal. -/
def escapeChar (c : Char) : List Char :=
  if c = '"' then ['\\', '"']
  else if c = '\\' then ['\\', '\\']
  else if c = '\n' then ['\\', 'n']
  else if c = '\r' then ['\\', 'r']
  else if c = '\t' then ['\\', 't']
  else if c.toNat < 32 then
    ['\\', 'u', '0', '0',
     Nat.digitChar (c.toNat / 16), Nat.digitChar (c.toNat % 16)]
  else [c]

/-- A JSON string literal: quotes around the escaped characters. -/
def quoteStr (s : List Char) : List Char :=
  '"' :: (s.map escapeChar).flatten ++ ['"']

/-- Characters of the literal null. -/
def nullChars : List Char := "null".toList

/-- Characters of the literal true. -/
def trueChars : List Char := "true".toList

/-- Characters of the literal false. -/
def falseChars : List Char := "false".toList

mutual

/-- json.Marshal: the compact rendering. -/
def renderC : Json → List Char
  | Json.null => nullChars
  | Json.bool true => trueChars
  | Json.bool false => falseChars
  | Json.num n => (toString n).toList
  | Json.str s => quoteStr s
  | Json.arr es => '[' :: renderCL es ++ [']']
  | Json.obj fs => '{' :: renderCF fs ++ ['}']

/-- Compact rendering of array elements, comma separated. -/
def renderCL : JsonList → List Char
  | JsonList.nil => []
  | JsonList.cons h t => renderC h ++ renderCLtail t

/-- Compact rendering of array elements after the first. -/
def renderCLtail : JsonList → List Char
  | JsonList.nil => []
  | JsonList.cons h t => ',' :: renderC h ++ renderCLtail t

/-- Compact rendering of object fields, comma separated. -/
def renderCF : JsonFields → List Char
  | JsonFields.nil => []
  | JsonFields.cons k v t => quoteStr k ++ ':' :: renderC v ++ renderCFtail t

/-- Compact rendering of object fields after the first. -/
def renderCFtail : JsonFields → List Char
  | JsonFields.nil => []
  | JsonFields.cons k v t => ',' :: (quoteStr k ++ ':' :: renderC v ++ renderCFtail t)

end

/-- The indentation written before an element at nesting depth d, for
json.MarshalIndent with empty prefix and a two-space indent unit. -/
def indentChars (d : Nat) : List Char := List.replicate (2 * d) ' '

mutual

/-- json.MarshalIndent with prefix empty and indent two spaces, at nesting
depth d: newline plus deeper indentation before every element, newline plus
current indentation before the closing bracket, a space after each object
colon; empty arrays and objects stay on one line. -/
def renderP : Nat → Json → List Char
  | _, Json.null => nullChars
  | _, Json.bool true => trueChars
  | _, Json.bool false => falseChars
  | _, Json.num n => (toString n).toList
  | _, Json.str s => quoteStr s
  | _, Json.arr JsonList.nil => ['[', ']']
  | d, Json.arr (JsonList.cons h t) =>
      '[' :: '\n' :: (indentChars (d + 1) ++ renderP (d + 1) h
        ++ renderPLtail (d + 1) t ++ '\n' :: indentChars d ++ [']'])
  | _, Json.obj JsonFields.nil => ['{', '}']
  | d, Json.obj (JsonFields.cons k v t) =>
      '{' :: '\n' :: (indentChars (d + 1) ++ quoteStr k ++ ':' :: ' '
        :: renderP (d + 1) v
        ++ renderPFtail (d + 1) t ++ '\n' :: indentChars d ++ ['}'])

/-- Indented rendering of array elements after the first, at depth d. -/
def renderPLtail : Nat → JsonList → List Char
  | _, JsonList.nil => []
  | d, JsonList.cons h t =>
      ',' :: '\n' :: (indentChars d ++ renderP d h ++ renderPLtail d t)

/-- Indented rendering of object fields after the first, at depth d. -/
def renderPFtail : Nat → JsonFields → List Char
  | _, JsonFields.nil => []
  | d, JsonFields.cons k v t =>
      ',' :: '\n' :: (indentChars d ++ quoteStr k ++ ':' :: ' '
        :: renderP d v ++ renderPFtail d t)

end

/-- json.Marshal as called by PrintJSON in compact mode. -/
def Marshal (v : Json) : List Char := renderC v

/-- json.MarshalIndent with empty prefix and two-space indent, as called by
PrintJSON in pretty mode. -/
def MarshalIndent (v : Json) : List Char := renderP 0 v

/-- Whitespace characters. -/
def isWSChar (c : Char) : Bool :=
  c == ' ' || c == '\n' || c == '\t' || c == '\r'

/-- Remove every whitespace character from a text. -/
def stripWS (s : List Char) : List Char := s.filter (fun c => !isWSChar c)

theorem stripWS_append (a b : List Char) :
    stripWS (a ++ b) = stripWS a ++ stripWS b := by
  simp [stripWS]

theorem stripWS_cons (c : Char) (s : List Char) :
    stripWS (c :: s) = if isWSChar c then stripWS s else c :: stripWS s := by
  simp only [stripWS, List.filter_cons]
  cases h : isWSChar c <;> simp [h]

theorem stripWS_replicate_space (n : Nat) :
    stripWS (List.replicate n ' ') = [] := by
  induction n with
  | zero => rfl
  | succ m ih => simp [List.replicate_succ, stripWS_cons, ih, isWSChar]

theorem stripWS_indent (d : Nat) : stripWS (indentChars d) = [] := by
  simp [indentChars, stripWS_replicate_space]

theorem isWS_nl : isWSChar '\n' = true := by decide

theorem isWS_sp : isWSChar ' ' = true := by decide

theorem isWS_lbrack : isWSChar '[' = false := by decide

theorem isWS_rbrack : isWSChar ']' = false := by decide

theorem isWS_lbrace : isWSChar '{' = false := by decide

theorem isWS_rbrace : isWSChar '}' = false := by decide

theorem isWS_comma : isWSChar ',' = false := by decide

theorem isWS_colon : isWSChar ':' = false := by decide

mutual

theorem stripWS_renderP : ∀ (d : Nat) (v : Json),
    stripWS (renderP d v) = stripWS (renderC v)
  | _, Json.null => rfl
  | _, Json.bool true => rfl
  | _, Json.bool false => rfl
  | _, Json.num _ => rfl
  | _, Json.str _ => rfl
  | _, Json.arr JsonList.nil => by
      simp [renderP, renderC, renderCL, stripWS_cons,
        isWS_lbrack, isWS_rbrack, stripWS]
  | d, Json.arr (JsonList.cons h t) => by
      have ih1 := stripWS_renderP (d + 1) h
      have ih2 := stripWS_renderPLtail (d + 1) t
      simp [renderP, renderC, renderCL, stripWS_cons, stripWS_append,
        stripWS_indent, isWS_lbrack, isWS_rbrack, isWS_nl, ih1, ih2]
  | _, Json.obj JsonFields.nil => by
      simp [renderP, renderC, renderCF, stripWS_cons,
        isWS_lbrace, isWS_rbrace, stripWS]
  | d, Json.obj (JsonFields.cons k v t) => by
      have ih1 := stripWS_renderP (d + 1) v
      have ih2 := stripWS_renderPFtail (d + 1) t
      simp [renderP, renderC, renderCF, stripWS_cons, stripWS_append,
        stripWS_indent, isWS_lbrace, isWS_rbrace, isWS_nl, isWS_sp,
        isWS_colon, ih1, ih2]

theorem stripWS_renderPLtail : ∀ (d : Nat) (t : JsonList),
    stripWS (renderPLtail d t) = stripWS (renderCLtail t)
  | _, JsonList.nil => rfl
  | d, JsonList.cons h t => by
      have ih1 := stripWS_renderP d h
      have ih2 := stripWS_renderPLtail d t
      simp [renderPLtail, renderCLtail, stripWS_cons, stripWS_append,
        stripWS_indent, isWS_comma, isWS_nl, ih1, ih2]

theorem stripWS_renderPFtail : ∀ (d : Nat) (t : JsonFields),
    stripWS (renderPFtail d t) = stripWS (renderCFtail t)
  | _, JsonFields.nil => rfl
  | d, JsonFields.cons k v t => by
      have ih1 := stripWS_renderP d v
      have ih2 := stripWS_renderPFtail d t
      simp [renderPFtail, renderCFtail, stripWS_cons, stripWS_append,
        stripWS_indent, isWS_comma, isWS_colon, isWS_sp, isWS_nl, ih1, ih2]

end

/-- Claim C7: serializing the same object graph in pretty and in compact
mode yields texts that are equal after removal of all whitespace; the two
modes differ only in whitespace. -/
theorem pretty_compact_equal_modulo_ws (v : Json) :
    stripWS (MarshalIndent v) = stripWS (Marshal v) :=
  stripWS_renderP 0 v

/-- Witness for C7 at a concrete graph: an object holding an array. -/
theorem pretty_compact_equal_modulo_ws_witness :
    stripWS (MarshalIndent (Json.obj (JsonFields.cons "domains".toList
        (Json.arr (JsonList.cons (Json.num 7) JsonList.nil)) JsonFields.nil)))
      = stripWS (Marshal (Json.obj (JsonFields.cons "domains".toList
        (Json.arr (JsonList.cons (Json.num 7) JsonList.nil)) JsonFields.nil))) :=
  pretty_compact_equal_modulo_ws (Json.obj (JsonFields.cons "domains".toList
    (Json.arr (JsonList.cons (Json.num 7) JsonList.nil)) JsonFields.nil))

/- ----------------------------------------------------------------
   The effectful pipeline: ExecuteDSL, PrintIR, PrintJSON, the check
   command action.  External collaborators are oracles in a World
   record fixed for one invocation; each function returns its result,
   the ordered trace of observable events, and the file-system model.
   ---------------------------------------------------------------- -/

/-- The configuration object graph (models.DNSConfig).  Its internals are
irrelevant to this fragment; domains stand in for the domain list handed to
the post-processor. -/
structure DNSConfig where
  domains : List String
  deriving DecidableEq, Repr

/-- Flags of ExecuteDSLArgs used by ExecuteDSL: the source path, the
development-mode flag, and the KEY=VALUE variable assignments. -/
structure ExecuteDSLArgs where
  JSFile : String
  DevMode : Bool
  Variable : List (List Char)
  deriving DecidableEq, Repr

/-- Flags of GetDNSConfigArgs: the embedded ExecuteDSLArgs plus the JSON
input path copied by the check command. -/
structure GetDNSConfigArgs where
  dsl : ExecuteDSLArgs
  JSONFile : String
  deriving DecidableEq, Repr

/-- Flags of PrintJSONArgs used by PrintJSON: pretty flag and output path. -/
structure PrintJSONArgs where
  Pretty : Bool
  Output : String
  deriving DecidableEq, Repr

/-- PrintIRArgs: loader args, serializer args, and the raw flag. -/
structure PrintIRArgs where
  gd : GetDNSConfigArgs
  pj : PrintJSONArgs
  Raw : Bool
  deriving DecidableEq, Repr

/-- CheckArgs: the check command only exposes the loader flags; there is no
raw, pretty, or output flag. -/
structure CheckArgs where
  gd : GetDNSConfigArgs
  deriving DecidableEq, Repr

/-- Observable events of one invocation, in order of occurrence. -/
inductive Event where
  | callEvaluate (path : String) (devMode : Bool)
      (vars : List (List Char × List Char))
  | callPostProcess
  | callValidate (cfg : DNSConfig)
  | logLine (line : String)
  | callMarshal (pretty : Bool) (cfg : DNSConfig)
  | createFile (path : String)
  | fileWrite (path : String) (data : String)
  | stdoutWrite (s : String)
  | redirectErrToStdout
  | redirectLogToStdout
  | callPrintWarning
  deriving DecidableEq, Repr

/-- The file system, as a path-to-content association list. -/
abbrev FS := List (String × String)

/-- One invocation's view of the external collaborators: what the evaluator
returns, what the post-processor does to the graph, what the validator
returns (new graph plus issues, since it mutates in place), what
encoding-json produces, and whether the file-system calls succeed. -/
structure World where
  evalResult : Except GoError DNSConfig
  postProcess : DNSConfig → Except GoError DNSConfig
  validate : DNSConfig → DNSConfig × List ValidationIssue
  marshal : Bool → DNSConfig → Except GoError String
  createResult : String → Except GoError Unit
  writeResult : Except GoError Unit

/-- ExecuteDSL from printIR.go: reject an empty source path before calling
the evaluator, wrap evaluator failures with the source path, then run the
post-processor over the domains. -/
def ExecuteDSLrun (w : World) (args : ExecuteDSLArgs) :
    Except GoError DNSConfig × List Event :=
  if args.JSFile = "" then
    (Except.error "no config specified", [])
  else
    let ev := Event.callEvaluate args.JSFile args.DevMode
      (stringSliceToMap args.Variable)
    match w.evalResult with
    | Except.error e =>
        (Except.error ("executing " ++ args.JSFile ++ ": " ++ e), [ev])
    | Except.ok dnsConfig =>
        match w.postProcess dnsConfig with
        | Except.error e => (Except.error e, [ev, Event.callPostProcess])
        | Except.ok cfg2 => (Except.ok cfg2, [ev, Event.callPostProcess])

/-- Modelled from the spec: GetDNSConfig lives in commands/getDnsConfig.go,
which is not part of this fragment.  Spec section 4.2 gives the Config
Loader contract Load(sourcePath, devMode, variables): check for an empty
source path before invoking the evaluator, delegate to the evaluator, then
run the post-processor -- which is exactly ExecuteDSL. -/
def GetDNSConfigRun (w : World) (args : GetDNSConfigArgs) :
    Except GoError DNSConfig × List Event :=
  ExecuteDSLrun w args.dsl

/-- PrintJSON from printIR.go: marshal first (pretty or compact), return a
marshalling error as is; then either create and write the output file
(os.Create truncates; a failed write leaves the truncated file) or print
the text followed by a newline to standard output. -/
def PrintJSONrun (w : World) (args : PrintJSONArgs) (config : DNSConfig)
    (fs : FS) : Except GoError Unit × List Event × FS :=
  let ev := Event.callMarshal args.Pretty config
  match w.marshal args.Pretty config with
  | Except.error e => (Except.error e, [ev], fs)
  | Except.ok dat =>
    if args.Output ≠ "" then
      match w.createResult args.Output with
      | Except.error e =>
          (Except.error e, [ev, Event.createFile args.Output], fs)
      | Except.ok _ =>
          let fs1 := upsert fs args.Output ""
          match w.writeResult with
          | Except.error e =>
              (Except.error e,
               [ev, Event.createFile args.Output,
                Event.fileWrite args.Output dat], fs1)
          | Except.ok _ =>
              (Except.ok (),
               [ev, Event.createFile args.Output,
                Event.fileWrite args.Output dat],
               upsert fs1 args.Output dat)
    else
      (Except.ok (), [ev, Event.stdoutWrite (dat ++ "\n")], fs)

/-- PrintIR from printIR.go: load, then unless raw is set validate and
classify (returning the generic validation failure when fatal), then
serialize. -/
def PrintIRrun (w : World) (args : PrintIRArgs) (fs : FS) :
    Except GoError Unit × List Event × FS :=
  match GetDNSConfigRun w args.gd with
  | (Except.error e, tr) => (Except.error e, tr, fs)
  | (Except.ok cfg, tr) =>
    if !args.Raw then
      let vr := w.validate cfg
      let pve := PrintValidationErrors vr.2
      let tr2 := tr ++ Event.callValidate cfg :: pve.2.map Event.logLine
      if pve.1 then
        (Except.error "exiting due to validation errors", tr2, fs)
      else
        let pj := PrintJSONrun w args.pj vr.1 fs
        (pj.1, tr2 ++ pj.2.1, pj.2.2)
    else
      let pj := PrintJSONrun w args.pj cfg fs
      (pj.1, tr ++ pj.2.1, pj.2.2)

/-- exit from printIR.go: nil stays nil, anything else is wrapped by
cli.Exit with code 1, keeping the message. -/
def exitWrap (err : Except GoError Unit) : Except GoError Unit := err

/-- The exit code produced by exit: zero on success, one otherwise. -/
def exitCode (err : Except GoError Unit) : Nat :=
  match err with
  | Except.ok _ => 0
  | Except.error _ => 1

/-- os.DevNull on the platforms this fragment targets. -/
def osDevNull : String := "/dev/null"

/-- The success message the check command prints. -/
def noErrorsLine : String := "No errors.\n"

/-- The PrintIRArgs the check action builds: loader flags copied verbatim,
pretty forced off, output forced to the discard sink, raw left at its zero
value since CheckArgs has no raw flag. -/
def checkPArgs (args : CheckArgs) : PrintIRArgs :=
  { gd := args.gd
    pj := { Pretty := false, Output := osDevNull }
    Raw := false }

/-- The Action of the check command (printIR.go lines 35-71): build the
forced PrintIRArgs, redirect the cli error writer and the log output to
standard output, run PrintIR through exit, always call the deferred
rfc4183 warning printer, and print the success message only when the
pipeline returned no error. -/
def checkAction (w : World) (args : CheckArgs) (fs : FS) :
    Except GoError Unit × List Event × FS :=
  let pargs := checkPArgs args
  let setup := [Event.redirectErrToStdout, Event.redirectLogToStdout]
  let pr := PrintIRrun w pargs fs
  let err := exitWrap pr.1
  let tr := setup ++ pr.2.1 ++ [Event.callPrintWarning]
  match err with
  | Except.ok _ => (err, tr ++ [Event.stdoutWrite noErrorsLine], pr.2.2)
  | Except.error _ => (err, tr, pr.2.2)

/-- The event recording the evaluator call made by ExecuteDSL. -/
def evalEvent (a : ExecuteDSLArgs) : Event :=
  Event.callEvaluate a.JSFile a.DevMode (stringSliceToMap a.Variable)

theorem executeDSL_empty (w : World) (a : ExecuteDSLArgs)
    (hj : a.JSFile = "") :
    ExecuteDSLrun w a = (Except.error "no config specified", []) := by
  unfold ExecuteDSLrun
  simp [hj]

theorem executeDSL_evalErr (w : World) (a : ExecuteDSLArgs) (e : GoError)
    (hj : ¬ a.JSFile = "") (hev : w.evalResult = Except.error e) :
    ExecuteDSLrun w a
      = (Except.error ("executing " ++ a.JSFile ++ ": " ++ e), [evalEvent a]) := by
  unfold ExecuteDSLrun
  simp [hj, hev, evalEvent]

theorem executeDSL_postErr (w : World) (a : ExecuteDSLArgs)
    (cfg : DNSConfig) (e : GoError)
    (hj : ¬ a.JSFile = "") (hev : w.evalResult = Except.ok cfg)
    (hp : w.postProcess cfg = Except.error e) :
    ExecuteDSLrun w a
      = (Except.error e, [evalEvent a, Event.callPostProcess]) := by
  unfold ExecuteDSLrun
  simp [hj, hev, hp, evalEvent]

theorem executeDSL_ok (w : World) (a : ExecuteDSLArgs)
    (cfg cfg2 : DNSConfig)
    (hj : ¬ a.JSFile = "") (hev : w.evalResult = Except.ok cfg)
    (hp : w.postProcess cfg = Except.ok cfg2) :
    ExecuteDSLrun w a
      = (Except.ok cfg2, [evalEvent a, Event.callPostProcess]) := by
  unfold ExecuteDSLrun
  simp [hj, hev, hp, evalEvent]

theorem executeDSL_trace_events (w : World) (a : ExecuteDSLArgs) :
    ∀ e ∈ (ExecuteDSLrun w a).2,
      e = evalEvent a ∨ e = Event.callPostProcess := by
  intro e he
  by_cases hj : a.JSFile = ""
  · rw [executeDSL_empty w a hj] at he
    simp at he
  · cases hev : w.evalResult with
    | error ee =>
      rw [executeDSL_evalErr w a ee hj hev] at he
      simp at he
      exact Or.inl he
    | ok cfg =>
      cases hp : w.postProcess cfg with
      | error ee =>
        rw [executeDSL_postErr w a cfg ee hj hev hp] at he
        simp at he
        exact he
      | ok cfg2 =>
        rw [executeDSL_ok w a cfg cfg2 hj hev hp] at he
        simp at he
        exact he

/-- The event recording the marshal call made by PrintJSON. -/
def marshalEvent (a : PrintJSONArgs) (c : DNSConfig) : Event :=
  Event.callMarshal a.Pretty c

theorem printJSON_marshalErr (w : World) (a : PrintJSONArgs) (c : DNSConfig)
    (fs : FS) (e : GoError) (hm : w.marshal a.Pretty c = Except.error e) :
    PrintJSONrun w a c fs = (Except.error e, [marshalEvent a c], fs) := by
  unfold PrintJSONrun
  simp [hm, marshalEvent]

theorem printJSON_stdout (w : World) (a : PrintJSONArgs) (c : DNSConfig)
    (fs : FS) (dat : String)
    (hm : w.marshal a.Pretty c = Except.ok dat) (ho : a.Output = "") :
    PrintJSONrun w a c fs
      = (Except.ok (),
         [marshalEvent a c, Event.stdoutWrite (dat ++ "\n")], fs) := by
  unfold PrintJSONrun
  simp [hm, ho, marshalEvent]

theorem printJSON_createErr (w : World) (a : PrintJSONArgs) (c : DNSConfig)
    (fs : FS) (dat : String) (e : GoError)
    (hm : w.marshal a.Pretty c = Except.ok dat) (ho : ¬ a.Output = "")
    (hc : w.createResult a.Output = Except.error e) :
    PrintJSONrun w a c fs
      = (Except.error e,
         [marshalEvent a c, Event.createFile a.Output], fs) := by
  unfold PrintJSONrun
  simp [hm, ho, hc, marshalEvent]

theorem printJSON_writeErr (w : World) (a : PrintJSONArgs) (c : DNSConfig)
    (fs : FS) (dat : String) (e : GoError)
    (hm : w.marshal a.Pretty c = Except.ok dat) (ho : ¬ a.Output = "")
    (hc : w.createResult a.Output = Except.ok ())
    (hw : w.writeResult = Except.error e) :
    PrintJSONrun w a c fs
      = (Except.error e,
         [marshalEvent a c, Event.createFile a.Output,
          Event.fileWrite a.Output dat],
         upsert fs a.Output "") := by
  unfold PrintJSONrun
  simp [hm, ho, hc, hw, marshalEvent]

theorem printJSON_fileOk (w : World) (a : PrintJSONArgs) (c : DNSConfig)
    (fs : FS) (dat : String)
    (hm : w.marshal a.Pretty c = Except.ok dat) (ho : ¬ a.Output = "")
    (hc : w.createResult a.Output = Except.ok ())
    (hw : w.writeResult = Except.ok ()) :
    PrintJSONrun w a c fs
      = (Except.ok (),
         [marshalEvent a c, Event.createFile a.Output,
          Event.fileWrite a.Output dat],
         upsert (upsert fs a.Output "") a.Output dat) := by
  unfold PrintJSONrun
  simp [hm, ho, hc, hw, marshalEvent]

theorem printJSON_trace_events (w : World) (a : PrintJSONArgs) (c : DNSConfig)
    (fs : FS) :
    ∀ e ∈ (PrintJSONrun w a c fs).2.1,
      e = marshalEvent a c
      ∨ e = Event.createFile a.Output
      ∨ (∃ d, e = Event.fileWrite a.Output d)
      ∨ (a.Output = "" ∧ ∃ s, e = Event.stdoutWrite s) := by
  intro e he
  cases hm : w.marshal a.Pretty c with
  | error ee =>
    rw [printJSON_marshalErr w a c fs ee hm] at he
    simp at he
    exact Or.inl he
  | ok dat =>
    by_cases ho : a.Output = ""
    · rw [printJSON_stdout w a c fs dat hm ho] at he
      simp at he
      rcases he with he | he
      · exact Or.inl he
      · exact Or.inr (Or.inr (Or.inr ⟨ho, _, he⟩))
    · cases hc : w.createResult a.Output with
      | error ee =>
        rw [printJSON_createErr w a c fs dat ee hm ho hc] at he
        simp at he
        rcases he with he | he
        · exact Or.inl he
        · exact Or.inr (Or.inl he)
      | ok u =>
        cases u
        cases hw : w.writeResult with
        | error ee =>
          rw [printJSON_writeErr w a c fs dat ee hm ho hc hw] at he
          simp at he
          rcases he with he | he | he
          · exact Or.inl he
          · exact Or.inr (Or.inl he)
          · exact Or.inr (Or.inr (Or.inl ⟨_, he⟩))
        | ok u2 =>
          cases u2
          rw [printJSON_fileOk w a c fs dat hm ho hc hw] at he
          simp at he
          rcases he with he | he | he
          · exact Or.inl he
          · exact Or.inr (Or.inl he)
          · exact Or.inr (Or.inr (Or.inl ⟨_, he⟩))

theorem printJSON_marshal_mem (w : World) (a : PrintJSONArgs) (c : DNSConfig)
    (fs : FS) :
    marshalEvent a c ∈ (PrintJSONrun w a c fs).2.1 := by
  cases hm : w.marshal a.Pretty c with
  | error ee =>
    rw [printJSON_marshalErr w a c fs ee hm]
    simp
  | ok dat =>
    by_cases ho : a.Output = ""
    · rw [printJSON_stdout w a c fs dat hm ho]
      simp
    · cases hc : w.createResult a.Output with
      | error ee =>
        rw [printJSON_createErr w a c fs dat ee hm ho hc]
        simp
      | ok u =>
        cases u
        cases hw : w.writeResult with
        | error ee =>
          rw [printJSON_writeErr w a c fs dat ee hm ho hc hw]
          simp
        | ok u2 =>
          cases u2
          rw [printJSON_fileOk w a c fs dat hm ho hc hw]
          simp

theorem printIR_loadErr (w : World) (args : PrintIRArgs) (fs : FS)
    (e : GoError) (tr : List Event)
    (hl : GetDNSConfigRun w args.gd = (Except.error e, tr)) :
    PrintIRrun w args fs = (Except.error e, tr, fs) := by
  unfold PrintIRrun
  rw [hl]

theorem printIR_raw (w : World) (args : PrintIRArgs) (fs : FS)
    (cfg : DNSConfig) (tr : List Event)
    (hl : GetDNSConfigRun w args.gd = (Except.ok cfg, tr))
    (hraw : args.Raw = true) :
    PrintIRrun w args fs
      = ((PrintJSONrun w args.pj cfg fs).1,
         tr ++ (PrintJSONrun w args.pj cfg fs).2.1,
         (PrintJSONrun w args.pj cfg fs).2.2) := by
  unfold PrintIRrun
  rw [hl]
  simp [hraw]

theorem printIR_fatal (w : World) (args : PrintIRArgs) (fs : FS)
    (cfg : DNSConfig) (tr : List Event)
    (hl : GetDNSConfigRun w args.gd = (Except.ok cfg, tr))
    (hraw : args.Raw = false)
    (hfat : (PrintValidationErrors (w.validate cfg).2).1 = true) :
    PrintIRrun w args fs
      = (Except.error "exiting due to validation errors",
         tr ++ Event.callValidate cfg
           :: (PrintValidationErrors (w.validate cfg).2).2.map Event.logLine,
         fs) := by
  unfold PrintIRrun
  rw [hl]
  simp [hraw, hfat]

theorem printIR_nonfatal (w : World) (args : PrintIRArgs) (fs : FS)
    (cfg : DNSConfig) (tr : List Event)
    (hl : GetDNSConfigRun w args.gd = (Except.ok cfg, tr))
    (hraw : args.Raw = false)
    (hfat : (PrintValidationErrors (w.validate cfg).2).1 = false) :
    PrintIRrun w args fs
      = ((PrintJSONrun w args.pj (w.validate cfg).1 fs).1,
         (tr ++ Event.callValidate cfg
            :: (PrintValidationErrors (w.validate cfg).2).2.map Event.logLine)
           ++ (PrintJSONrun w args.pj (w.validate cfg).1 fs).2.1,
         (PrintJSONrun w args.pj (w.validate cfg).1 fs).2.2) := by
  unfold PrintIRrun
  rw [hl]
  simp [hraw, hfat]

theorem printIR_trace_events (w : World) (args : PrintIRArgs) (fs : FS) :
    ∀ e ∈ (PrintIRrun w args fs).2.1,
      (∃ p d v, e = Event.callEvaluate p d v)
      ∨ e = Event.callPostProcess
      ∨ (∃ c, e = Event.callValidate c)
      ∨ (∃ s, e = Event.logLine s)
      ∨ (∃ p c, e = Event.callMarshal p c)
      ∨ (∃ p, e = Event.createFile p)
      ∨ (∃ p d, e = Event.fileWrite p d)
      ∨ (args.pj.Output = "" ∧ ∃ s, e = Event.stdoutWrite s) := by
  intro e he
  have hdsl : ∀ e2 ∈ (ExecuteDSLrun w args.gd.dsl).2,
      (∃ p d v, e2 = Event.callEvaluate p d v) ∨ e2 = Event.callPostProcess := by
    intro e2 he2
    rcases executeDSL_trace_events w args.gd.dsl e2 he2 with h | h
    · exact Or.inl ⟨_, _, _, h⟩
    · exact Or.inr h
  have hpj : ∀ cfg2 : DNSConfig, e ∈ (PrintJSONrun w args.pj cfg2 fs).2.1 →
      (∃ p c, e = Event.callMarshal p c)
      ∨ (∃ p, e = Event.createFile p)
      ∨ (∃ p d, e = Event.fileWrite p d)
      ∨ (args.pj.Output = "" ∧ ∃ s, e = Event.stdoutWrite s) := by
    intro cfg2 hin
    rcases printJSON_trace_events w args.pj cfg2 fs e hin with h | h | h | h
    · exact Or.inl ⟨_, _, h⟩
    · exact Or.inr (Or.inl ⟨_, h⟩)
    · rcases h with ⟨d, hd⟩
      exact Or.inr (Or.inr (Or.inl ⟨_, d, hd⟩))
    · exact Or.inr (Or.inr (Or.inr h))
  cases hload : GetDNSConfigRun w args.gd with
  | mk res tr =>
    have htr : tr = (ExecuteDSLrun w args.gd.dsl).2 := by
      have h2 : (GetDNSConfigRun w args.gd).2 = tr := by rw [hload]
      exact h2.symm
    cases res with
    | error ee =>
      rw [printIR_loadErr w args fs ee tr hload] at he
      simp only at he
      rcases hdsl e (htr ▸ he) with h | h
      · exact Or.inl h
      · exact Or.inr (Or.inl h)
    | ok cfg =>
      cases hraw : args.Raw with
      | true =>
        rw [printIR_raw w args fs cfg tr hload hraw] at he
        simp only at he
        rcases List.mem_append.mp he with h | h
        · rcases hdsl e (htr ▸ h) with h2 | h2
          · exact Or.inl h2
          · exact Or.inr (Or.inl h2)
        · rcases hpj cfg h with h2 | h2 | h2 | h2
          · exact Or.inr (Or.inr (Or.inr (Or.inr (Or.inl h2))))
          · exact Or.inr (Or.inr (Or.inr (Or.inr (Or.inr (Or.inl h2)))))
          · exact Or.inr (Or.inr (Or.inr (Or.inr (Or.inr (Or.inr (Or.inl h2))))))
          · exact Or.inr (Or.inr (Or.inr (Or.inr (Or.inr (Or.inr (Or.inr h2))))))
      | false =>
        have hmid : ∀ e2, e2 ∈ tr ++ Event.callValidate cfg
              :: (PrintValidationErrors (w.validate cfg).2).2.map Event.logLine →
            (∃ p d v, e2 = Event.callEvaluate p d v)
            ∨ e2 = Event.callPostProcess
            ∨ (∃ c, e2 = Event.callValidate c)
            ∨ (∃ s, e2 = Event.logLine s) := by
          intro e2 he2
          rcases List.mem_append.mp he2 with h | h
          · rcases hdsl e2 (htr ▸ h) with h2 | h2
            · exact Or.inl h2
            · exact Or.inr (Or.inl h2)
          · rcases List.mem_cons.mp h with h2 | h2
            · exact Or.inr (Or.inr (Or.inl ⟨_, h2⟩))
            · rcases List.mem_map.mp h2 with ⟨s, _, hs⟩
              exact Or.inr (Or.inr (Or.inr ⟨s, hs.symm⟩))
        cases hfat : (PrintValidationErrors (w.validate cfg).2).1 with
        | true =>
          rw [printIR_fatal w args fs cfg tr hload hraw hfat] at he
          simp only at he
          rcases hmid e he with h | h | h | h
          · exact Or.inl h
          · exact Or.inr (Or.inl h)
          · exact Or.inr (Or.inr (Or.inl h))
          · exact Or.inr (Or.inr (Or.inr (Or.inl h)))
        | false =>
          rw [printIR_nonfatal w args fs cfg tr hload hraw hfat] at he
          simp only at he
          rcases List.mem_append.mp he with h | h
          · rcases hmid e h with h2 | h2 | h2 | h2
            · exact Or.inl h2
            · exact Or.inr (Or.inl h2)
            · exact Or.inr (Or.inr (Or.inl h2))
            · exact Or.inr (Or.inr (Or.inr (Or.inl h2)))
          · rcases hpj _ h with h2 | h2 | h2 | h2
            · exact Or.inr (Or.inr (Or.inr (Or.inr (Or.inl h2))))
            · exact Or.inr (Or.inr (Or.inr (Or.inr (Or.inr (Or.inl h2)))))
            · exact Or.inr (Or.inr (Or.inr (Or.inr (Or.inr (Or.inr (Or.inl h2))))))
            · exact Or.inr (Or.inr (Or.inr (Or.inr (Or.inr (Or.inr (Or.inr h2))))))

/-- Claim C2: with the raw flag set, PrintIR never invokes the validator or
normalizer, never classifies or reports any issue, and after a successful
load proceeds directly to serializing the graph exactly as the evaluator
and post-processor produced it. -/
theorem raw_mode_skips_validation (w : World) (args : PrintIRArgs) (fs : FS)
    (cfg cfg2 : DNSConfig)
    (hraw : args.Raw = true)
    (hjs : ¬ args.gd.dsl.JSFile = "")
    (hev : w.evalResult = Except.ok cfg)
    (hp : w.postProcess cfg = Except.ok cfg2) :
    PrintIRrun w args fs
      = ((PrintJSONrun w args.pj cfg2 fs).1,
         [evalEvent args.gd.dsl, Event.callPostProcess]
           ++ (PrintJSONrun w args.pj cfg2 fs).2.1,
         (PrintJSONrun w args.pj cfg2 fs).2.2)
    ∧ (∀ c, Event.callValidate c ∉ (PrintIRrun w args fs).2.1)
    ∧ (∀ s, Event.logLine s ∉ (PrintIRrun w args fs).2.1)
    ∧ Event.callMarshal args.pj.Pretty cfg2 ∈ (PrintIRrun w args fs).2.1 := by
  have hload : GetDNSConfigRun w args.gd
      = (Except.ok cfg2, [evalEvent args.gd.dsl, Event.callPostProcess]) :=
    executeDSL_ok w args.gd.dsl cfg cfg2 hjs hev hp
  have hmain := printIR_raw w args fs cfg2 _ hload hraw
  refine ⟨hmain, ?_, ?_, ?_⟩
  · intro c hc
    rw [hmain] at hc
    rcases List.mem_append.mp hc with h | h
    · simp [evalEvent] at h
    · rcases printJSON_trace_events w args.pj cfg2 fs _ h with h2 | h2 | h2 | h2 <;>
        simp [marshalEvent] at h2
  · intro s hc
    rw [hmain] at hc
    rcases List.mem_append.mp hc with h | h
    · simp [evalEvent] at h
    · rcases printJSON_trace_events w args.pj cfg2 fs _ h with h2 | h2 | h2 | h2 <;>
        simp [marshalEvent] at h2
  · rw [hmain]
    exact List.mem_append.mpr (Or.inr (printJSON_marshal_mem w args.pj cfg2 fs))

/-- A concrete configuration graph for the witnesses. -/
def cfgW : DNSConfig := ⟨["example.com"]⟩

/-- A concrete world in which every collaborator succeeds and the validator
reports no issue. -/
def wOK : World :=
  { evalResult := Except.ok cfgW
    postProcess := fun c => Except.ok c
    validate := fun c => (c, [])
    marshal := fun _ _ => Except.ok "serialized"
    createResult := fun _ => Except.ok ()
    writeResult := Except.ok () }

/-- Concrete print-ir arguments with the raw flag set. -/
def argsRaw : PrintIRArgs :=
  { gd := { dsl := { JSFile := "dnsconfig.js", DevMode := false, Variable := [] }
            JSONFile := "" }
    pj := { Pretty := false, Output := "" }
    Raw := true }

/-- Witness for C2 at a concrete world and arguments. -/
theorem raw_mode_skips_validation_witness :
    Event.callValidate cfgW ∉ (PrintIRrun wOK argsRaw []).2.1
    ∧ Event.logLine "1 Validation errors:" ∉ (PrintIRrun wOK argsRaw []).2.1
    ∧ Event.callMarshal false cfgW ∈ (PrintIRrun wOK argsRaw []).2.1 :=
  ⟨(raw_mode_skips_validation wOK argsRaw [] cfgW cfgW rfl (by decide) rfl
      rfl).2.1 cfgW,
   (raw_mode_skips_validation wOK argsRaw [] cfgW cfgW rfl (by decide) rfl
      rfl).2.2.1 "1 Validation errors:",
   (raw_mode_skips_validation wOK argsRaw [] cfgW cfgW rfl (by decide) rfl
      rfl).2.2.2⟩

/-- Claim C3: when classification is fatal, PrintIR returns an error whose
whole message is the generic "exiting due to validation errors" text, no
marshalling or file activity happens, the file system is unchanged, and
every WARNING or ERROR line has already been emitted in the trace before
the error return. -/
theorem fatal_validation_aborts (w : World) (args : PrintIRArgs) (fs : FS)
    (cfg cfg2 : DNSConfig)
    (hraw : args.Raw = false)
    (hjs : ¬ args.gd.dsl.JSFile = "")
    (hev : w.evalResult = Except.ok cfg)
    (hp : w.postProcess cfg = Except.ok cfg2)
    (hfat : (PrintValidationErrors (w.validate cfg2).2).1 = true) :
    PrintIRrun w args fs
      = (Except.error "exiting due to validation errors",
         [evalEvent args.gd.dsl, Event.callPostProcess]
           ++ Event.callValidate cfg2
             :: (PrintValidationErrors (w.validate cfg2).2).2.map Event.logLine,
         fs)
    ∧ (∀ p c, Event.callMarshal p c ∉ (PrintIRrun w args fs).2.1)
    ∧ (∀ p, Event.createFile p ∉ (PrintIRrun w args fs).2.1)
    ∧ (∀ p d, Event.fileWrite p d ∉ (PrintIRrun w args fs).2.1)
    ∧ (∀ line ∈ (PrintValidationErrors (w.validate cfg2).2).2,
        Event.logLine line ∈ (PrintIRrun w args fs).2.1) := by
  have hload : GetDNSConfigRun w args.gd
      = (Except.ok cfg2, [evalEvent args.gd.dsl, Event.callPostProcess]) :=
    executeDSL_ok w args.gd.dsl cfg cfg2 hjs hev hp
  have hmain := printIR_fatal w args fs cfg2 _ hload hraw hfat
  refine ⟨hmain, ?_, ?_, ?_, ?_⟩
  · intro p c hc
    rw [hmain] at hc
    simp [evalEvent] at hc
  · intro p hc
    rw [hmain] at hc
    simp [evalEvent] at hc
  · intro p d hc
    rw [hmain] at hc
    simp [evalEvent] at hc
  · intro line hl
    rw [hmain]
    exact List.mem_append.mpr (Or.inr (List.mem_cons.mpr
      (Or.inr (List.mem_map_of_mem _ hl))))

/-- A concrete world whose validator reports one fatal issue. -/
def wFatal : World :=
  { evalResult := Except.ok cfgW
    postProcess := fun c => Except.ok c
    validate := fun c => (c, [⟨false, "bad record"⟩])
    marshal := fun _ _ => Except.ok "serialized"
    createResult := fun _ => Except.ok ()
    writeResult := Except.ok () }

/-- Concrete print-ir arguments without the raw flag. -/
def argsPlain : PrintIRArgs :=
  { gd := { dsl := { JSFile := "dnsconfig.js", DevMode := false, Variable := [] }
            JSONFile := "" }
    pj := { Pretty := false, Output := "" }
    Raw := false }

/-- Witness for C3 at a concrete world and arguments. -/
theorem fatal_validation_aborts_witness :
    (PrintIRrun wFatal argsPlain []).1
      = Except.error "exiting due to validation errors"
    ∧ Event.callMarshal false cfgW ∉ (PrintIRrun wFatal argsPlain []).2.1
    ∧ Event.logLine "ERROR: bad record" ∈ (PrintIRrun wFatal argsPlain []).2.1 :=
  ⟨by
    rw [(fatal_validation_aborts wFatal argsPlain [] cfgW cfgW rfl (by decide)
      rfl rfl (by decide)).1],
   (fatal_validation_aborts wFatal argsPlain [] cfgW cfgW rfl (by decide)
      rfl rfl (by decide)).2.1 false cfgW,
   (fatal_validation_aborts wFatal argsPlain [] cfgW cfgW rfl (by decide)
      rfl rfl (by decide)).2.2.2.2 "ERROR: bad record" (by decide)⟩

/-- Claim C4: with an empty source path, ExecuteDSL fails with the
"no config specified" error before the evaluator is ever invoked (zero
evaluator events), and both the print-ir pipeline and the check pipeline
fail. -/
theorem empty_source_fails_before_eval (w : World) (args : PrintIRArgs)
    (fs : FS) (h : args.gd.dsl.JSFile = "") :
    ExecuteDSLrun w args.gd.dsl = (Except.error "no config specified", [])
    ∧ PrintIRrun w args fs = (Except.error "no config specified", [], fs)
    ∧ (∀ p d v, Event.callEvaluate p d v ∉ (PrintIRrun w args fs).2.1)
    ∧ (checkAction w ⟨args.gd⟩ fs).1 = Except.error "no config specified"
    ∧ (∀ p d v, Event.callEvaluate p d v ∉ (checkAction w ⟨args.gd⟩ fs).2.1) := by
  have h1 := executeDSL_empty w args.gd.dsl h
  have hmain := printIR_loadErr w args fs "no config specified" [] h1
  have hpr : PrintIRrun w (checkPArgs ⟨args.gd⟩) fs
      = (Except.error "no config specified", [], fs) :=
    printIR_loadErr w (checkPArgs ⟨args.gd⟩) fs "no config specified" [] h1
  have hca : checkAction w ⟨args.gd⟩ fs
      = (Except.error "no config specified",
         [Event.redirectErrToStdout, Event.redirectLogToStdout,
          Event.callPrintWarning], fs) := by
    unfold checkAction
    dsimp only
    rw [hpr]
    simp [exitWrap]
  refine ⟨h1, hmain, ?_, ?_, ?_⟩
  · intro p d v hc
    rw [hmain] at hc
    simp at hc
  · rw [hca]
  · intro p d v hc
    rw [hca] at hc
    simp at hc

/-- Concrete print-ir arguments whose source path is empty. -/
def argsNoSrc : PrintIRArgs :=
  { gd := { dsl := { JSFile := "", DevMode := false, Variable := [] }
            JSONFile := "" }
    pj := { Pretty := false, Output := "" }
    Raw := false }

/-- Witness for C4 at a concrete world and arguments. -/
theorem empty_source_fails_before_eval_witness :
    ExecuteDSLrun wOK argsNoSrc.gd.dsl = (Except.error "no config specified", [])
    ∧ Event.callEvaluate "" false (stringSliceToMap [])
        ∉ (PrintIRrun wOK argsNoSrc []).2.1
    ∧ (checkAction wOK ⟨argsNoSrc.gd⟩ []).1
        = Except.error "no config specified" :=
  ⟨(empty_source_fails_before_eval wOK argsNoSrc [] rfl).1,
   (empty_source_fails_before_eval wOK argsNoSrc [] rfl).2.2.1 ""
     false (stringSliceToMap []),
   (empty_source_fails_before_eval wOK argsNoSrc [] rfl).2.2.2.1⟩

/-- Claim C9: if marshalling fails, PrintJSON returns the rendering error
itself and the destination file is never created, truncated, or written:
marshalling happens strictly before file creation, so the file system is
returned unchanged. -/
theorem marshal_error_leaves_destination (w : World) (a : PrintJSONArgs)
    (c : DNSConfig) (fs : FS) (e : GoError)
    (hm : w.marshal a.Pretty c = Except.error e)
    (_ho : ¬ a.Output = "") :
    PrintJSONrun w a c fs
      = (Except.error e, [Event.callMarshal a.Pretty c], fs)
    ∧ (∀ p, Event.createFile p ∉ (PrintJSONrun w a c fs).2.1)
    ∧ (∀ p d, Event.fileWrite p d ∉ (PrintJSONrun w a c fs).2.1)
    ∧ (PrintJSONrun w a c fs).2.2 = fs := by
  have hmain := printJSON_marshalErr w a c fs e hm
  refine ⟨hmain, ?_, ?_, by rw [hmain]⟩
  · intro p hc
    rw [hmain] at hc
    simp [marshalEvent] at hc
  · intro p d hc
    rw [hmain] at hc
    simp [marshalEvent] at hc

/-- A concrete world whose marshaller fails. -/
def wMarshalErr : World :=
  { evalResult := Except.ok cfgW
    postProcess := fun c => Except.ok c
    validate := fun c => (c, [])
    marshal := fun _ _ => Except.error "marshal failed"
    createResult := fun _ => Except.ok ()
    writeResult := Except.ok () }

/-- Witness for C9: with a failing marshaller and destination out.json, the
error is returned, no create event happens, and the prior file content
survives. -/
theorem marshal_error_leaves_destination_witness :
    (PrintJSONrun wMarshalErr ⟨false, "out.json"⟩ cfgW [("out.json", "old")]).1
      = Except.error "marshal failed"
    ∧ Event.createFile "out.json"
        ∉ (PrintJSONrun wMarshalErr ⟨false, "out.json"⟩ cfgW
            [("out.json", "old")]).2.1
    ∧ (PrintJSONrun wMarshalErr ⟨false, "out.json"⟩ cfgW
        [("out.json", "old")]).2.2 = [("out.json", "old")] :=
  ⟨by
    rw [(marshal_error_leaves_destination wMarshalErr ⟨false, "out.json"⟩ cfgW
      [("out.json", "old")] "marshal failed" rfl (by decide)).1],
   (marshal_error_leaves_destination wMarshalErr ⟨false, "out.json"⟩ cfgW
      [("out.json", "old")] "marshal failed" rfl (by decide)).2.1 "out.json",
   (marshal_error_leaves_destination wMarshalErr ⟨false, "out.json"⟩ cfgW
      [("out.json", "old")] "marshal failed" rfl (by decide)).2.2.2⟩

/-- Claim C10: for the same graph and serialized text, a file destination
receives exactly the serialized bytes with no trailing newline, while the
standard-output destination emits the serialized text followed by a
trailing newline -- so the two destination kinds produce byte-wise
different output. -/
theorem file_vs_stdout_bytes (w : World) (p : Bool) (path : String)
    (c : DNSConfig) (fs : FS) (dat : String)
    (hm : w.marshal p c = Except.ok dat)
    (hc : w.createResult path = Except.ok ())
    (hw : w.writeResult = Except.ok ())
    (hpath : ¬ path = "") :
    lookupKey (PrintJSONrun w ⟨p, path⟩ c fs).2.2 path = some dat
    ∧ Event.fileWrite path dat ∈ (PrintJSONrun w ⟨p, path⟩ c fs).2.1
    ∧ Event.stdoutWrite (dat ++ "\n") ∈ (PrintJSONrun w ⟨p, ""⟩ c fs).2.1
    ∧ dat ≠ dat ++ "\n" := by
  have hfile := printJSON_fileOk w ⟨p, path⟩ c fs dat hm hpath hc hw
  have hstd := printJSON_stdout w ⟨p, ""⟩ c fs dat hm rfl
  refine ⟨?_, ?_, ?_, ?_⟩
  · rw [hfile]
    simp [lookup_upsert]
  · rw [hfile]
    simp
  · rw [hstd]
    simp
  · intro hEq
    have hlen := congrArg String.length hEq
    rw [String.length_append] at hlen
    have h1 : ("\n" : String).length = 1 := rfl
    rw [h1] at hlen
    omega

/-- Witness for C10: in the all-success world the file receives exactly the
serialized text and standard output receives it with a trailing newline. -/
theorem file_vs_stdout_bytes_witness :
    lookupKey (PrintJSONrun wOK ⟨false, "out.json"⟩ cfgW []).2.2 "out.json"
      = some "serialized"
    ∧ Event.fileWrite "out.json" "serialized"
        ∈ (PrintJSONrun wOK ⟨false, "out.json"⟩ cfgW []).2.1
    ∧ Event.stdoutWrite ("serialized" ++ "\n")
        ∈ (PrintJSONrun wOK ⟨false, ""⟩ cfgW []).2.1
    ∧ "serialized" ≠ "serialized" ++ "\n" :=
  file_vs_stdout_bytes wOK false "out.json" cfgW [] "serialized" rfl rfl rfl
    (by decide)

theorem printIR_no_printWarning (w : World) (args : PrintIRArgs) (fs : FS) :
    Event.callPrintWarning ∉ (PrintIRrun w args fs).2.1 := by
  intro hc
  have h := printIR_trace_events w args fs _ hc
  simp at h

theorem printIR_no_stdout (w : World) (args : PrintIRArgs) (fs : FS)
    (ho : ¬ args.pj.Output = "") (s : String) :
    Event.stdoutWrite s ∉ (PrintIRrun w args fs).2.1 := by
  intro hc
  have h := printIR_trace_events w args fs _ hc
  simp at h
  exact ho h

theorem checkPArgs_output_ne (args : CheckArgs) :
    ¬ (checkPArgs args).pj.Output = "" := by
  simp [checkPArgs, osDevNull]

theorem checkAction_eq (w : World) (args : CheckArgs) (fs : FS) :
    checkAction w args fs
      = ((PrintIRrun w (checkPArgs args) fs).1,
         [Event.redirectErrToStdout, Event.redirectLogToStdout]
           ++ (PrintIRrun w (checkPArgs args) fs).2.1
           ++ Event.callPrintWarning
             :: (match (PrintIRrun w (checkPArgs args) fs).1 with
                 | Except.ok _ => [Event.stdoutWrite noErrorsLine]
                 | Except.error _ => []),
         (PrintIRrun w (checkPArgs args) fs).2.2) := by
  unfold checkAction
  dsimp only
  unfold exitWrap
  cases hres : (PrintIRrun w (checkPArgs args) fs).1 with
  | ok u =>
    cases u
    simp
  | error e =>
    simp

/-- Claim C8: the check command forces pretty off, the destination to the
discard sink, and the raw flag off (validation runs whenever the load
succeeds); it redirects the error stream and log output to standard output
before the pipeline, invokes the deferred rfc4183 warning printer exactly
once after the pipeline regardless of success or failure, and prints the
"No errors." line to standard output iff the pipeline succeeded. -/
theorem check_mode_contract (w : World) (args : CheckArgs) (fs : FS) :
    ((checkPArgs args).pj.Pretty = false
      ∧ (checkPArgs args).pj.Output = osDevNull
      ∧ (checkPArgs args).Raw = false)
    ∧ (checkAction w args fs).2.1
        = [Event.redirectErrToStdout, Event.redirectLogToStdout]
            ++ (PrintIRrun w (checkPArgs args) fs).2.1
            ++ Event.callPrintWarning
              :: (match (PrintIRrun w (checkPArgs args) fs).1 with
                  | Except.ok _ => [Event.stdoutWrite noErrorsLine]
                  | Except.error _ => [])
    ∧ (checkAction w args fs).2.1.count Event.callPrintWarning = 1
    ∧ (Event.stdoutWrite noErrorsLine ∈ (checkAction w args fs).2.1
        ↔ (PrintIRrun w (checkPArgs args) fs).1 = Except.ok ())
    ∧ (∀ cfg cfg2 : DNSConfig, w.evalResult = Except.ok cfg →
        w.postProcess cfg = Except.ok cfg2 →
        ¬ args.gd.dsl.JSFile = "" →
        Event.callValidate cfg2 ∈ (checkAction w args fs).2.1) := by
  have htr : (checkAction w args fs).2.1
      = [Event.redirectErrToStdout, Event.redirectLogToStdout]
          ++ (PrintIRrun w (checkPArgs args) fs).2.1
          ++ Event.callPrintWarning
            :: (match (PrintIRrun w (checkPArgs args) fs).1 with
                | Except.ok _ => [Event.stdoutWrite noErrorsLine]
                | Except.error _ => []) := by
    rw [checkAction_eq w args fs]
  refine ⟨⟨rfl, rfl, rfl⟩, htr, ?_, ?_, ?_⟩
  · rw [htr]
    rw [List.count_append, List.count_append]
    have h0 : ([Event.redirectErrToStdout,
        Event.redirectLogToStdout] : List Event).count Event.callPrintWarning
        = 0 := by decide
    have h1 : (PrintIRrun w (checkPArgs args) fs).2.1.count
        Event.callPrintWarning = 0 :=
      List.count_eq_zero.mpr (printIR_no_printWarning w (checkPArgs args) fs)
    rw [h0, h1]
    cases hres : (PrintIRrun w (checkPArgs args) fs).1 <;>
      simp [List.count_cons]
  · rw [htr]
    cases hres : (PrintIRrun w (checkPArgs args) fs).1 with
    | ok u =>
      cases u
      apply iff_of_true
      · simp
      · rfl
    | error e =>
      apply iff_of_false
      · intro hmem
        rcases List.mem_append.mp hmem with hm1 | hm2
        · rcases List.mem_append.mp hm1 with hs | hp
          · simp at hs
          · exact printIR_no_stdout w (checkPArgs args) fs
              (checkPArgs_output_ne args) _ hp
        · simp [noErrorsLine] at hm2
      · simp
  · intro cfg cfg2 hev hp hjs
    have hload : GetDNSConfigRun w (checkPArgs args).gd
        = (Except.ok cfg2, [evalEvent args.gd.dsl, Event.callPostProcess]) :=
      executeDSL_ok w args.gd.dsl cfg cfg2 hjs hev hp
    have hmem : Event.callValidate cfg2 ∈ (PrintIRrun w (checkPArgs args) fs).2.1 := by
      cases hfat : (PrintValidationErrors (w.validate cfg2).2).1 with
      | true =>
        rw [printIR_fatal w (checkPArgs args) fs cfg2 _ hload rfl hfat]
        simp
      | false =>
        rw [printIR_nonfatal w (checkPArgs args) fs cfg2 _ hload rfl hfat]
        simp
    rw [htr]
    exact List.mem_append.mpr (Or.inl (List.mem_append.mpr (Or.inr hmem)))

/-- Concrete check-command arguments. -/
def argsCheck : CheckArgs :=
  ⟨{ dsl := { JSFile := "dnsconfig.js", DevMode := false, Variable := [] }
     JSONFile := "" }⟩

/-- Witness for C8 at a concrete world and arguments. -/
theorem check_mode_contract_witness :
    (checkPArgs argsCheck).pj.Output = osDevNull
    ∧ (checkAction wOK argsCheck []).2.1.count Event.callPrintWarning = 1
    ∧ Event.callValidate cfgW ∈ (checkAction wOK argsCheck []).2.1 :=
  ⟨(check_mode_contract wOK argsCheck []).1.2.1,
   (check_mode_contract wOK argsCheck []).2.2.1,
   (check_mode_contract wOK argsCheck []).2.2.2.2 cfgW cfgW rfl rfl (by decide)⟩

end DnsControl
